import Mathlib

/-!
# go-proxy: the request-forwarding pipeline of `internal/proxy/proxy.go`

A shallow embedding of the reverse proxy's core (`Init`, `CORSMiddleware`,
`Handler`, `DelHop`, `JoinPath`) together with the parts of the Go standard
library those functions call (`strings`, `net/textproto`, `net/http.Header`,
`net.SplitHostPort`, `http.Error`).

Go strings are modelled by Lean strings and sliced through their character
lists; every slice taken by the code starts or ends next to an ASCII byte
that was just matched, so character and byte offsets agree.
-/

namespace GoProxy

/-! ## package strings -/

/-- Go `strings.HasPrefix(s, p)`. -/
def HasPrefix (s p : String) : Bool := p.data.isPrefixOf s.data

/-- Go `strings.HasSuffix(s, p)`. -/
def HasSuffix (s p : String) : Bool := p.data.isSuffixOf s.data

/-- Go `strings.TrimPrefix(s, p)`: `s[len(p):]` when `s` starts with `p`, else `s`. -/
def TrimPrefix (s p : String) : String :=
  if HasPrefix s p then String.mk (s.data.drop p.data.length) else s

/-- Go `strings.TrimSuffix(s, p)`: `s[:len(s)-len(p)]` when `s` ends with `p`, else `s`. -/
def TrimSuffix (s p : String) : String :=
  if HasSuffix s p then String.mk (s.data.take (s.data.length - p.data.length)) else s

/-- Go `strings.ToLower(s)` on the ASCII letters.  The two non-ASCII runes whose
lower case is an ASCII letter (U+212A to `k`, U+0130 to `i`) map to letters
that occur in none of the names this program compares against. -/
def ToLower (s : String) : String := String.mk (s.data.map Char.toLower)

/-- Go slice expression `s[1:]`. -/
def sliceFrom1 (s : String) : String := String.mk (s.data.drop 1)

/-! ## proxy.go: JoinPath (lines 204-218) -/

/-- JoinPath joins two paths accurately. -/
def JoinPath (base extra : String) : String :=
  if base = "" ∨ base = "/" then
    extra
  else
    let a := HasSuffix base "/"
    let b := HasPrefix extra "/"
    if a && b then
      base ++ sliceFrom1 extra
    else if !a && !b then
      base ++ "/" ++ extra
    else
      base ++ extra

/-- The fields of `url.URL` the proxy reads and writes. -/
structure URL where
  Scheme : String
  Host : String
  Path : String
  RawQuery : String
deriving DecidableEq, Repr

/-- Lines 121 and 132-135 of `Handler`: the tail of the request path. -/
def handlerTail (pfx : String) (path : String) : String :=
  let strip := TrimSuffix pfx "/"
  let tail := TrimPrefix path strip
  if tail = "" then "/" else tail

/-- Lines 136-141 of `Handler`: the upstream URL `u`.  Its `Path` is the path
forwarded upstream; the rendering `u.String()` and the parse inside
`http.NewRequestWithContext` are not modelled. -/
def handlerURL (pfx : String) (target : URL) (path rawQuery : String) : URL :=
  { Scheme := target.Scheme
    Host := target.Host
    Path := JoinPath target.Path (handlerTail pfx path)
    RawQuery := rawQuery }

/-- The slash-deduplication rule in the words of the specification: the first
and last characters of the two parts decide how they are glued. -/
def joinRule (base extra : String) : String :=
  if base = "" ∨ base = "/" then extra
  else if base.data.getLast? = some '/' ∧ extra.data.head? = some '/' then
    base ++ String.mk extra.data.tail
  else if base.data.getLast? ≠ some '/' ∧ extra.data.head? ≠ some '/' then
    base ++ "/" ++ extra
  else base ++ extra

/-- Go `validHeaderFieldByte`: the token characters of RFC 7230. -/
def validHeaderFieldByte (c : Char) : Bool :=
  c.isAlphanum ||
    [ '!', '#', '$', '%', '&', Char.ofNat 39, '*', '+', '-', '.', '^', '_',
      Char.ofNat 96, '|', '~' ].contains c

/-- The body of the canonicalising loop of Go `canonicalMIMEHeaderKey`: the
byte written for `c`, given whether an upper-case letter is due. -/
def canonicalChar (upper : Bool) (c : Char) : Char :=
  if upper && c.isLower then c.toUpper
  else if !upper && c.isUpper then c.toLower
  else c

/-- The canonicalising loop of Go `canonicalMIMEHeaderKey`: upper case for the
first letter and for a letter after `-`, lower case for the other letters. -/
def canonicalLoop : Bool → List Char → List Char
  | _, [] => []
  | upper, c :: cs =>
    let c1 := canonicalChar upper c
    c1 :: canonicalLoop (c1 == '-') cs

/-- Go `textproto.CanonicalMIMEHeaderKey`: a key with a character that is no
token character is returned unchanged, any other key is canonicalised. -/
def CanonicalMIMEHeaderKey (s : String) : String :=
  if s.data.all validHeaderFieldByte then String.mk (canonicalLoop true s.data) else s

/-- Go `http.Header`, a `map[string][]string`: `entry k` is the value list
stored under the key `k`, or `none` when `k` is not a key of the map.  Keys are
stored as written: `h[k] = vv` and `delete(h, k)` take `k` as it is, while
`Get`, `Set` and `Del` apply `CanonicalMIMEHeaderKey` to their argument and
then index the map with the result. -/
structure Header where
  entry : String → Option (List String)

/-- Go `make(http.Header)`. -/
def Header.empty : Header := ⟨fun _ => none⟩

/-- Go map assignment `h[k] = vv`. -/
def Header.assign (h : Header) (k : String) (vv : List String) : Header :=
  ⟨fun x => if x = k then some vv else h.entry x⟩

/-- Go builtin `delete(h, k)`. -/
def Header.delete (h : Header) (k : String) : Header :=
  ⟨fun x => if x = k then none else h.entry x⟩

/-- Go `Header.Get`: `v := h[CanonicalMIMEHeaderKey(key)]`, then `v[0]`, or
`""` when `v` is empty. -/
def Header.Get (h : Header) (key : String) : String :=
  match h.entry (CanonicalMIMEHeaderKey key) with
  | some (v :: _) => v
  | _ => ""

/-- Go `Header.Set`: `h[CanonicalMIMEHeaderKey(key)] = []string{value}`. -/
def Header.Set (h : Header) (key value : String) : Header :=
  h.assign (CanonicalMIMEHeaderKey key) [value]

/-- Go `Header.Del`: `delete(h, CanonicalMIMEHeaderKey(key))`. -/
def Header.Del (h : Header) (key : String) : Header :=
  h.delete (CanonicalMIMEHeaderKey key)

/-- Go `for k, vv := range src { dst[k] = vv }`.  A map holds each key once, so
the assignments are independent of the iteration order: every key of `src`
ends with the value list of `src`, every other key keeps what `dst` had. -/
def Header.assignAll (dst src : Header) : Header :=
  ⟨fun k => match src.entry k with
    | some vv => some vv
    | none => dst.entry k⟩

/-- The fields of `http.Request` the proxy reads. -/
structure Request where
  Method : String
  URL : URL
  Header : Header
  RemoteAddr : String
  ContentLength : Int
  Body : String

/-- An `http.ResponseWriter`: the header map `w.Header()`, the status code of
the first `WriteHeader` call (`none` before it), and the body written so far. -/
structure ResponseWriter where
  header : Header
  status : Option Nat
  body : String

/-- Go `w.WriteHeader(code)`: only the first call takes effect. -/
def ResponseWriter.WriteHeader (w : ResponseWriter) (code : Nat) : ResponseWriter :=
  match w.status with
  | none => { w with status := some code }
  | some _ => w

/-- Go `w.Write(p)`: an implicit `WriteHeader(200)` when no status was written. -/
def ResponseWriter.Write (w : ResponseWriter) (p : String) : ResponseWriter :=
  let w1 := w.WriteHeader 200
  { w1 with body := w1.body ++ p }

/-- Go `http.Handler`: serving a request transforms the response writer. -/
abbrev HandlerFunc := ResponseWriter → Request → ResponseWriter

def StatusNoContent : Nat := 204
def StatusBadGateway : Nat := 502
def StatusServiceUnavailable : Nat := 503

/-- Go `http.Error(w, error, code)`. -/
def Error (w : ResponseWriter) (error : String) (code : Nat) : ResponseWriter :=
  let h := w.header.Del "Content-Length"
  let h := h.Set "Content-Type" "text/plain; charset=utf-8"
  let h := h.Set "X-Content-Type-Options" "nosniff"
  let w := { w with header := h }
  let w := w.WriteHeader code
  w.Write (error ++ "\n")

/-! ## config.go and proxy.go: Init (lines 40-79) -/

/-- Go `config.CORSConfig`. -/
structure CORSConfig where
  AllowedOrigins : List String

/-- Go `config.ProxyConfig`; the field is a Go `int`. -/
structure ProxyConfig where
  MaxConcurrentRequests : Int

/-- The fields of `config.Config` that `Init` reads for CORS and admission
(the transport settings play no part in what follows). -/
structure Config where
  CORS : CORSConfig
  Proxy : ProxyConfig

/-- Lines 44-50 of `Init`: the loop that sets `isAllAllowed`. -/
def isAllAllowed : List String → Bool
  | [] => false
  | origin :: rest => if origin = "*" then true else isAllAllowed rest

/-- The line `Init` logs about CORS. -/
inductive CORSLog where
  /-- `CORS: allowing all origins (*)`. -/
  | allowingAll
  /-- `CORS: allowing origins: ...`. -/
  | allowingOrigins (origins : List String)
  /-- `CORS: disabled (no allowed_origins in config)`. -/
  | disabled
deriving DecidableEq, Repr

/-- The package-level variables `Init` sets (`allowedOrigins`, and `proxySem`
by its capacity) and the line it logs about CORS. -/
structure Package where
  allowedOrigins : List String
  proxySemCap : Nat
  corsLog : CORSLog
deriving DecidableEq, Repr

/-- Init initializes the proxy with the provided configuration.  `none` stands
for the panic of `make(chan struct{}, n)` on a negative `n`. -/
def Init (cfg : Config) : Option Package :=
  let allowedOrigins := cfg.CORS.AllowedOrigins
  let log :=
    if allowedOrigins.length > 0 then
      if isAllAllowed allowedOrigins then CORSLog.allowingAll
      else CORSLog.allowingOrigins allowedOrigins
    else CORSLog.disabled
  if cfg.Proxy.MaxConcurrentRequests < 0 then none
  else
    some
      { allowedOrigins := allowedOrigins
        proxySemCap := cfg.Proxy.MaxConcurrentRequests.toNat
        corsLog := log }

/-! ## proxy.go: CORSMiddleware (lines 81-117) -/

/-- Lines 93-100: the loop over the allow-list, stopping at the first entry
equal to the origin.  Returns the header map and the flag `allowed`. -/
def corsMatchLoop (origin : String) : List String → Header → Header × Bool
  | [], h => (h, false)
  | ao :: rest, h =>
    if ao = origin then
      ((h.Set "Access-Control-Allow-Origin" origin).Set "Vary" "Origin", true)
    else corsMatchLoop origin rest h

/-- CORSMiddleware wraps an http.Handler with CORS logic. -/
def CORSMiddleware (allowedOrigins : List String) (next : HandlerFunc) : HandlerFunc :=
  fun w r =>
    let origin := r.Header.Get "Origin"
    if allowedOrigins.length > 0 ∧ origin ≠ "" then
      let (h, allowed) :=
        if allowedOrigins.head? = some "*" then
          (w.header.Set "Access-Control-Allow-Origin" "*", true)
        else corsMatchLoop origin allowedOrigins w.header
      if allowed then
        let h := h.Set "Access-Control-Allow-Methods" "GET, POST, PUT, DELETE, OPTIONS, PATCH"
        let h := h.Set "Access-Control-Allow-Headers" "Content-Type, Authorization, X-Requested-With"
        let h := h.Set "Access-Control-Max-Age" "86400"
        if r.Method = "OPTIONS" then
          ResponseWriter.WriteHeader { w with header := h } StatusNoContent
        else next { w with header := h } r
      else next { w with header := h } r
    else next w r

/-! ## package net: SplitHostPort -/

/-- Go `bytealg.IndexByteString`: position of the first `c`, if any. -/
def indexByte (s : List Char) (c : Char) : Option Nat :=
  if s.indexOf c < s.length then some (s.indexOf c) else none

/-- Go `bytealg.LastIndexByteString`: position of the last `c`, if any. -/
def lastIndexByte (s : List Char) (c : Char) : Option Nat :=
  (indexByte s.reverse c).map (fun i => s.length - 1 - i)

/-- Go `net.SplitHostPort`: `some (host, port)` when the error is nil. -/
def SplitHostPort (hostport : String) : Option (String × String) :=
  let s := hostport.data
  match lastIndexByte s ':' with
  | none => none  -- missing port in address
  | some i =>
    let finish (host : List Char) (j k : Nat) : Option (String × String) :=
      if (indexByte (s.drop j) '[').isSome then none
      else if (indexByte (s.drop k) ']').isSome then none
      else some (String.mk host, String.mk (s.drop (i + 1)))
    if s.head? = some '[' then
      match indexByte s ']' with
      | none => none  -- missing ']' in address
      | some e =>
        if e + 1 = s.length then none
        else if e + 1 = i then finish ((s.take e).drop 1) 1 (e + 1)
        else none
    else
      if (indexByte (s.take i) ':').isSome then none  -- too many colons in address
      else finish (s.take i) 0 0

/-! ## proxy.go: hopHeaders, DelHop and Handler (lines 28-38, 119-202) -/

/-- Hop-by-hop headers that MUST NOT be forwarded. -/
def hopHeaders : List String :=
  [ "Connection",
    "Keep-Alive",
    "Proxy-Authenticate",
    "Proxy-Authorization",
    "Te",
    "Trailers",
    "Transfer-Encoding",
    "Upgrade" ]

/-- DelHop removes hop-by-hop headers. -/
def DelHop (h : Header) : Header :=
  hopHeaders.foldl (fun h k => h.Del k) h

/-- The request `Handler` sends upstream: the fields of `out` it sets. -/
structure OutRequest where
  Method : String
  URL : URL
  Host : String
  Header : Header
  ContentLength : Int
  Body : String

/-- The fields of the upstream `http.Response` the proxy reads. -/
structure Response where
  StatusCode : Nat
  Header : Header
  Body : String

/-- What `Handler` calls outside the package: whether
`http.NewRequestWithContext` accepts a method and URL, and the shared
transport's `RoundTrip` (`none` for an error). -/
structure Upstream where
  newRequestOk : String → URL → Bool
  RoundTrip : OutRequest → Option Response

/-- Which case of the `select` at lines 124-130 ran: the send on `proxySem`
or the receive from `r.Context().Done()`. -/
inductive Admission where
  | acquired
  | cancelled
deriving DecidableEq, Repr

/-- Lines 151-164 of `Handler`: the header map of the outbound request. -/
def outboundHeader (target : URL) (r : Request) : Header :=
  let h := Header.empty.assignAll r.Header
  let h := DelHop h
  let h := h.Set "Host" target.Host
  match SplitHostPort r.RemoteAddr with
  | some (ip, _) =>
    let xff := h.Get "X-Forwarded-For"
    if xff ≠ "" then h.Set "X-Forwarded-For" (xff ++ ", " ++ ip)
    else h.Set "X-Forwarded-For" ip
  | none => h

/-- Line 176 of `Handler`: the test that selects the headers to snapshot. -/
def isCORSHeader (k : String) : Bool :=
  HasPrefix (ToLower k) "access-control-" || ToLower k == "vary"

/-- Lines 174-179 of `Handler`: the entries of `wh` that pass the test. -/
def corsSnapshot (wh : Header) : Header :=
  ⟨fun k => if isCORSHeader k then wh.entry k else none⟩

/-- Lines 173-193 of `Handler`: merging the upstream response into the client
response and copying the body. -/
def writeResponse (w : ResponseWriter) (resp : Response) : ResponseWriter :=
  let wh := w.header
  let corsHeaders := corsSnapshot wh
  let wh := wh.assignAll resp.Header
  let wh := DelHop wh
  let wh := wh.assignAll corsHeaders
  let w := { w with header := wh }
  let w := w.WriteHeader resp.StatusCode
  w.Write resp.Body

/-- Handler returns an http.HandlerFunc that proxies requests to the target URL. -/
def Handler (pfx : String) (target : URL) (up : Upstream) (admission : Admission) :
    HandlerFunc :=
  fun w r =>
    match admission with
    | Admission.cancelled => Error w "Service Unavailable" StatusServiceUnavailable
    | Admission.acquired =>
      let u := handlerURL pfx target r.URL.Path r.URL.RawQuery
      if up.newRequestOk r.Method u then
        let out : OutRequest :=
          { Method := r.Method
            URL := u
            Host := target.Host
            Header := outboundHeader target r
            ContentLength := r.ContentLength
            Body := r.Body }
        match up.RoundTrip out with
        | none => Error w "Bad Gateway" StatusBadGateway
        | some resp => writeResponse w resp
      else Error w "Bad Gateway" StatusBadGateway

theorem hasSuffix_slash_iff (s : String) :
    HasSuffix s "/" = true ↔ s.data.getLast? = some '/' := by
  unfold HasSuffix
  rw [List.isSuffixOf_iff_suffix]
  show ['/'] <:+ s.data ↔ _
  constructor
  · rintro ⟨t, ht⟩
    rw [← ht]
    simp
  · intro h
    obtain ⟨t, ht⟩ := List.getLast?_eq_some_iff.mp h
    exact ⟨t, ht.symm⟩

theorem hasPrefix_slash_iff (s : String) :
    HasPrefix s "/" = true ↔ s.data.head? = some '/' := by
  unfold HasPrefix
  rw [List.isPrefixOf_iff_prefix]
  show ['/'] <+: s.data ↔ _
  constructor
  · rintro ⟨t, ht⟩
    rw [← ht]
    simp
  · intro h
    cases hs : s.data with
    | nil => rw [hs] at h; simp at h
    | cons c cs =>
      rw [hs] at h
      simp at h
      subst h
      exact ⟨cs, rfl⟩

/-- The header names the program passes to `Get`, `Set` and `Del` are in
canonical form already. -/
theorem canonical_constants :
    CanonicalMIMEHeaderKey "Origin" = "Origin" ∧
    CanonicalMIMEHeaderKey "Vary" = "Vary" ∧
    CanonicalMIMEHeaderKey "Host" = "Host" ∧
    CanonicalMIMEHeaderKey "X-Forwarded-For" = "X-Forwarded-For" ∧
    CanonicalMIMEHeaderKey "Access-Control-Allow-Origin" = "Access-Control-Allow-Origin" ∧
    CanonicalMIMEHeaderKey "Access-Control-Allow-Methods" = "Access-Control-Allow-Methods" ∧
    CanonicalMIMEHeaderKey "Access-Control-Allow-Headers" = "Access-Control-Allow-Headers" ∧
    CanonicalMIMEHeaderKey "Access-Control-Max-Age" = "Access-Control-Max-Age" := by
  decide

theorem canon_Vary : CanonicalMIMEHeaderKey "Vary" = "Vary" := canonical_constants.2.1
theorem canon_XFF : CanonicalMIMEHeaderKey "X-Forwarded-For" = "X-Forwarded-For" :=
  canonical_constants.2.2.2.1
theorem canon_ACAO :
    CanonicalMIMEHeaderKey "Access-Control-Allow-Origin" = "Access-Control-Allow-Origin" :=
  canonical_constants.2.2.2.2.1
theorem canon_ACAM :
    CanonicalMIMEHeaderKey "Access-Control-Allow-Methods" = "Access-Control-Allow-Methods" :=
  canonical_constants.2.2.2.2.2.1
theorem canon_ACAH :
    CanonicalMIMEHeaderKey "Access-Control-Allow-Headers" = "Access-Control-Allow-Headers" :=
  canonical_constants.2.2.2.2.2.2.1
theorem canon_ACMA :
    CanonicalMIMEHeaderKey "Access-Control-Max-Age" = "Access-Control-Max-Age" :=
  canonical_constants.2.2.2.2.2.2.2

/-! ### Canonical keys -/

theorem entry_Set (h : Header) (key value x : String) :
    (h.Set key value).entry x
      = if x = CanonicalMIMEHeaderKey key then some [value] else h.entry x := rfl

theorem entry_Del (h : Header) (key x : String) :
    (h.Del key).entry x = if x = CanonicalMIMEHeaderKey key then none else h.entry x := rfl

theorem entry_foldl_Del (l : List String) (h : Header) (k : String) :
    (l.foldl (fun h k => h.Del k) h).entry k
      = if k ∈ l.map CanonicalMIMEHeaderKey then none else h.entry k := by
  induction l generalizing h with
  | nil => simp
  | cons a rest ih =>
    rw [List.foldl_cons, ih, entry_Del]
    by_cases h1 : k ∈ rest.map CanonicalMIMEHeaderKey
    · simp [h1]
    · by_cases h2 : k = CanonicalMIMEHeaderKey a
      · simp [h2]
      · simp [h1, h2]

theorem hopHeaders_canonical : hopHeaders.map CanonicalMIMEHeaderKey = hopHeaders := by
  decide

/-- `DelHop` deletes exactly the eight keys of `hopHeaders`. -/
theorem entry_DelHop (h : Header) (k : String) :
    (DelHop h).entry k = if k ∈ hopHeaders then none else h.entry k := by
  unfold DelHop
  rw [entry_foldl_Del, hopHeaders_canonical]

theorem entry_assignAll_empty (h : Header) (k : String) :
    (Header.empty.assignAll h).entry k = h.entry k := by
  show (match h.entry k with | some vv => some vv | none => none) = h.entry k
  cases h.entry k <;> rfl

theorem ne_of_isCORSHeader (k c : String) (hk : isCORSHeader k = true)
    (hc : isCORSHeader c = false) : k ≠ c := by
  intro e
  rw [e, hc] at hk
  exact Bool.noConfusion hk

theorem header_Error (w : ResponseWriter) (msg : String) (code : Nat) :
    (Error w msg code).header
      = ((w.header.Del "Content-Length").Set "Content-Type" "text/plain; charset=utf-8").Set
          "X-Content-Type-Options" "nosniff" := by
  unfold Error ResponseWriter.Write ResponseWriter.WriteHeader
  cases w.status <;> rfl

theorem header_writeResponse (w : ResponseWriter) (resp : Response) :
    (writeResponse w resp).header
      = (DelHop (w.header.assignAll resp.Header)).assignAll (corsSnapshot w.header) := by
  unfold writeResponse ResponseWriter.Write ResponseWriter.WriteHeader
  cases w.status <;> rfl

/-! ## Lemmas on CORSMiddleware -/

theorem corsMatchLoop_of_mem (origin : String) (l : List String) (h : Header)
    (hin : origin ∈ l) :
    corsMatchLoop origin l h
      = ((h.Set "Access-Control-Allow-Origin" origin).Set "Vary" "Origin", true) := by
  induction l with
  | nil => simp at hin
  | cons ao rest ih =>
    unfold corsMatchLoop
    by_cases hao : ao = origin
    · rw [if_pos hao]
    · rw [if_neg hao]
      rcases List.mem_cons.mp hin with h1 | h1
      · exact absurd h1.symm hao
      · exact ih h1

theorem corsMatchLoop_of_not_mem (origin : String) (l : List String) (h : Header)
    (hin : origin ∉ l) : corsMatchLoop origin l h = (h, false) := by
  induction l with
  | nil => rfl
  | cons ao rest ih =>
    unfold corsMatchLoop
    have hao : ¬ ao = origin := fun e => hin (by rw [← e]; exact List.mem_cons_self _ _)
    rw [if_neg hao]
    exact ih (fun hm => hin (List.mem_cons_of_mem _ hm))

/-! ## Lemmas on the admission gate -/

/-- C1: for every pair of strings, `JoinPath` returns what the documented
slash-deduplication rule prescribes: `extra` when `base` is empty or `/`;
`base` followed by `extra` without its first character when `base` ends in `/`
and `extra` starts with `/`; `base`, `/`, `extra` when neither holds; and
`base` followed by `extra` in the two remaining cases. -/
theorem JoinPath_eq_joinRule (base extra : String) :
    JoinPath base extra = joinRule base extra := by
  unfold JoinPath joinRule
  by_cases h0 : base = "" ∨ base = "/"
  · rw [if_pos h0, if_pos h0]
  · rw [if_neg h0, if_neg h0]
    have ha := hasSuffix_slash_iff base
    have hb := hasPrefix_slash_iff extra
    have hs : sliceFrom1 extra = String.mk extra.data.tail := by
      unfold sliceFrom1
      simp
    by_cases a : HasSuffix base "/" = true <;> by_cases b : HasPrefix extra "/" = true
    · have a1 := ha.mp a
      have b1 := hb.mp b
      simp [a, b, a1, b1, hs]
    · have a1 := ha.mp a
      have b1 : ¬ extra.data.head? = some '/' := fun h => b (hb.mpr h)
      simp [a, b, a1, b1]
    · have a1 : ¬ base.data.getLast? = some '/' := fun h => a (ha.mpr h)
      have b1 := hb.mp b
      simp [a, b, a1, b1]
    · have a1 : ¬ base.data.getLast? = some '/' := fun h => a (ha.mpr h)
      have b1 : ¬ extra.data.head? = some '/' := fun h => b (hb.mpr h)
      simp [a, b, a1, b1]

/-- C6: for an allow-list whose wildcard test fails and that contains the
request's non-empty Origin, an OPTIONS request on a response writer without a
status yet gets status 204 No Content, `Access-Control-Allow-Origin` set to the
origin, `Vary: Origin`, the allowed-methods, allowed-headers and max-age
headers, no body, and the same result whatever the wrapped handler is: the
wrapped handler is never invoked. -/
theorem CORSMiddleware_preflight (allowedOrigins : List String) (next : HandlerFunc)
    (w : ResponseWriter) (r : Request)
    (hwild : allowedOrigins.head? ≠ some "*")
    (hin : r.Header.Get "Origin" ∈ allowedOrigins)
    (horigin : r.Header.Get "Origin" ≠ "")
    (hmethod : r.Method = "OPTIONS")
    (hfresh : w.status = none) :
    (CORSMiddleware allowedOrigins next w r).status = some 204 ∧
    (CORSMiddleware allowedOrigins next w r).header.entry "Access-Control-Allow-Origin"
      = some [r.Header.Get "Origin"] ∧
    (CORSMiddleware allowedOrigins next w r).header.entry "Vary" = some ["Origin"] ∧
    (CORSMiddleware allowedOrigins next w r).header.entry "Access-Control-Allow-Methods"
      = some ["GET, POST, PUT, DELETE, OPTIONS, PATCH"] ∧
    (CORSMiddleware allowedOrigins next w r).header.entry "Access-Control-Allow-Headers"
      = some ["Content-Type, Authorization, X-Requested-With"] ∧
    (CORSMiddleware allowedOrigins next w r).header.entry "Access-Control-Max-Age"
      = some ["86400"] ∧
    (CORSMiddleware allowedOrigins next w r).body = w.body ∧
    ∀ other : HandlerFunc,
      CORSMiddleware allowedOrigins other w r = CORSMiddleware allowedOrigins next w r := by
  have hlen : allowedOrigins.length > 0 := List.length_pos_of_mem hin
  have hcond : allowedOrigins.length > 0 ∧ r.Header.Get "Origin" ≠ "" := ⟨hlen, horigin⟩
  have key : ∀ f : HandlerFunc, CORSMiddleware allowedOrigins f w r
      = ResponseWriter.WriteHeader
          { w with header :=
              (((((w.header.Set "Access-Control-Allow-Origin" (r.Header.Get "Origin")).Set
                "Vary" "Origin").Set
                "Access-Control-Allow-Methods" "GET, POST, PUT, DELETE, OPTIONS, PATCH").Set
                "Access-Control-Allow-Headers" "Content-Type, Authorization, X-Requested-With").Set
                "Access-Control-Max-Age" "86400") } StatusNoContent := by
    intro f
    unfold CORSMiddleware
    rw [if_pos hcond]
    simp only [if_neg hwild, corsMatchLoop_of_mem _ _ _ hin, hmethod, if_true]
  rw [key next]
  refine ⟨?_, ?_, ?_, ?_, ?_, ?_, ?_, key⟩
  · simp [ResponseWriter.WriteHeader, hfresh, StatusNoContent]
  all_goals
    simp [ResponseWriter.WriteHeader, hfresh, entry_Set, canon_ACAO, canon_Vary, canon_ACAM,
      canon_ACAH, canon_ACMA]

/-- C6 at the specification's example: allow-list `["https://a.example"]`,
`Origin: https://a.example`, method OPTIONS. -/
theorem CORSMiddleware_preflight_witness :
    (CORSMiddleware ["https://a.example"] (fun w _ => w.Write "routed")
        ⟨Header.empty, none, ""⟩
        ⟨"OPTIONS", ⟨"", "", "/svc/users", ""⟩,
          Header.empty.Set "Origin" "https://a.example", "10.0.0.1:1234", 0, ""⟩).status
      = some 204 :=
  (CORSMiddleware_preflight ["https://a.example"] (fun w _ => w.Write "routed")
    ⟨Header.empty, none, ""⟩
    ⟨"OPTIONS", ⟨"", "", "/svc/users", ""⟩,
      Header.empty.Set "Origin" "https://a.example", "10.0.0.1:1234", 0, ""⟩
    (by decide) (by decide) (by decide) (by decide) rfl).1

/-- C7: with the allow-list `["*"]` and a non-empty Origin, the header map the
middleware answers with or passes on has `Access-Control-Allow-Origin: *`, and
its `Vary` entry is the one the response writer had before (absent on a new
response): the middleware sets no `Vary`. -/
theorem CORSMiddleware_wildcard (w : ResponseWriter) (r : Request)
    (horigin : r.Header.Get "Origin" ≠ "") :
    ∃ h : Header,
      h.entry "Access-Control-Allow-Origin" = some ["*"] ∧
      h.entry "Vary" = w.header.entry "Vary" ∧
      ∀ next : HandlerFunc,
        CORSMiddleware ["*"] next w r
          = if r.Method = "OPTIONS" then
              ResponseWriter.WriteHeader { w with header := h } StatusNoContent
            else next { w with header := h } r := by
  refine ⟨(((w.header.Set "Access-Control-Allow-Origin" "*").Set
      "Access-Control-Allow-Methods" "GET, POST, PUT, DELETE, OPTIONS, PATCH").Set
      "Access-Control-Allow-Headers" "Content-Type, Authorization, X-Requested-With").Set
      "Access-Control-Max-Age" "86400", ?_, ?_, ?_⟩
  · simp [entry_Set, canon_ACAO, canon_ACAM, canon_ACAH, canon_ACMA]
  · simp [entry_Set, canon_ACAO, canon_ACAM, canon_ACAH, canon_ACMA]
  · intro next
    unfold CORSMiddleware
    simp [horigin]

/-- C7 at a GET request with `Origin: https://b.example` on a new response. -/
theorem CORSMiddleware_wildcard_witness :
    ∃ h : Header,
      h.entry "Access-Control-Allow-Origin" = some ["*"] ∧
      h.entry "Vary" = Header.empty.entry "Vary" ∧
      ∀ next : HandlerFunc,
        CORSMiddleware ["*"] next ⟨Header.empty, none, ""⟩
            ⟨"GET", ⟨"", "", "/", ""⟩, Header.empty.Set "Origin" "https://b.example", "", 0, ""⟩
          = if "GET" = "OPTIONS" then
              ResponseWriter.WriteHeader { (⟨Header.empty, none, ""⟩ : ResponseWriter) with
                header := h } StatusNoContent
            else next { (⟨Header.empty, none, ""⟩ : ResponseWriter) with header := h }
              ⟨"GET", ⟨"", "", "/", ""⟩, Header.empty.Set "Origin" "https://b.example", "", 0, ""⟩ :=
  CORSMiddleware_wildcard ⟨Header.empty, none, ""⟩
    ⟨"GET", ⟨"", "", "/", ""⟩, Header.empty.Set "Origin" "https://b.example", "", 0, ""⟩
    (by decide)

/-- C8: when the allow-list is empty, or the request has no Origin, or the
Origin equals no allow-list entry while the wildcard test fails, then for every
method the middleware's result is the wrapped handler's result on the same
response writer and the same request: no header set, no status written, one
invocation. -/
theorem CORSMiddleware_passthrough (allowedOrigins : List String) (next : HandlerFunc)
    (w : ResponseWriter) (r : Request)
    (h : allowedOrigins = [] ∨ r.Header.Get "Origin" = "" ∨
      (allowedOrigins.head? ≠ some "*" ∧ r.Header.Get "Origin" ∉ allowedOrigins)) :
    CORSMiddleware allowedOrigins next w r = next w r := by
  unfold CORSMiddleware
  rcases h with h | h | ⟨h1, h2⟩
  · subst h
    simp
  · simp [h]
  · by_cases hc : allowedOrigins.length > 0 ∧ r.Header.Get "Origin" ≠ ""
    · simp only [hc, and_self, if_true, if_neg h1, corsMatchLoop_of_not_mem _ _ _ h2]
      simp
    · simp only [if_neg hc]

/-- C8 at an OPTIONS request whose Origin is not on the allow-list. -/
theorem CORSMiddleware_passthrough_witness :
    CORSMiddleware ["https://a.example"] (fun w _ => w.Write "routed")
        ⟨Header.empty, none, ""⟩
        ⟨"OPTIONS", ⟨"", "", "/", ""⟩, Header.empty.Set "Origin" "https://evil.example", "", 0, ""⟩
      = (fun w _ => w.Write "routed" : HandlerFunc) ⟨Header.empty, none, ""⟩
        ⟨"OPTIONS", ⟨"", "", "/", ""⟩, Header.empty.Set "Origin" "https://evil.example", "", 0, ""⟩ :=
  CORSMiddleware_passthrough ["https://a.example"] (fun w _ => w.Write "routed")
    ⟨Header.empty, none, ""⟩
    ⟨"OPTIONS", ⟨"", "", "/", ""⟩, Header.empty.Set "Origin" "https://evil.example", "", 0, ""⟩
    (Or.inr (Or.inr ⟨by decide, by decide⟩))

/-- C10 fails on the code: for the allow-list `["https://a.example", "*"]`
`Init` logs that all origins are allowed, yet for `Origin: https://b.example`
the middleware sets no `Access-Control-Allow-Origin` and passes the request
on, and for `Origin: https://a.example` it echoes the origin, not `*`. -/
theorem wildcard_after_first_entry_ignored :
    (Init ⟨⟨["https://a.example", "*"]⟩, ⟨100⟩⟩).map Package.corsLog = some CORSLog.allowingAll ∧
    (CORSMiddleware ["https://a.example", "*"] (fun w _ => w) ⟨Header.empty, none, ""⟩
        ⟨"GET", ⟨"", "", "/", ""⟩, Header.empty.Set "Origin" "https://b.example", "", 0, ""⟩
      ).header.entry "Access-Control-Allow-Origin" = none ∧
    (CORSMiddleware ["https://a.example", "*"] (fun w _ => w) ⟨Header.empty, none, ""⟩
        ⟨"GET", ⟨"", "", "/", ""⟩, Header.empty.Set "Origin" "https://a.example", "", 0, ""⟩
      ).header.entry "Access-Control-Allow-Origin" = some ["https://a.example"] := by
  decide

/-- C4: when the remote address splits into `ip` and a port, the outbound
request carries exactly one `X-Forwarded-For` value: the client request's
`X-Forwarded-For` value (what `Header.Get` reads) followed by `, ` and `ip`
when there is such a value, and `ip` alone when `Get` finds none. -/
theorem outboundHeader_xff (target : URL) (r : Request) (ip port : String)
    (hsplit : SplitHostPort r.RemoteAddr = some (ip, port)) :
    (outboundHeader target r).entry "X-Forwarded-For"
      = some [if r.Header.Get "X-Forwarded-For" ≠ ""
          then r.Header.Get "X-Forwarded-For" ++ ", " ++ ip else ip] := by
  have hget : ((DelHop (Header.empty.assignAll r.Header)).Set "Host" target.Host).Get
      "X-Forwarded-For" = r.Header.Get "X-Forwarded-For" := by
    unfold Header.Get
    have hne : ¬ (CanonicalMIMEHeaderKey "X-Forwarded-For" = CanonicalMIMEHeaderKey "Host") := by
      decide
    have hnot : CanonicalMIMEHeaderKey "X-Forwarded-For" ∉ hopHeaders := by decide
    rw [entry_Set, if_neg hne, entry_DelHop, if_neg hnot, entry_assignAll_empty]
  unfold outboundHeader
  rw [hsplit]
  simp only [hget]
  by_cases hx : r.Header.Get "X-Forwarded-For" ≠ ""
  · simp only [if_pos hx, entry_Set, canon_XFF, if_true]
  · simp only [if_neg hx, entry_Set, canon_XFF, if_true]

/-- C4 at a request from `10.0.0.1:1234` that carries
`X-Forwarded-For: 1.1.1.1`. -/
theorem outboundHeader_xff_witness :
    (outboundHeader ⟨"http", "up", "", ""⟩
        ⟨"GET", ⟨"", "", "/", ""⟩, Header.empty.assign "X-Forwarded-For" ["1.1.1.1"],
          "10.0.0.1:1234", 0, ""⟩).entry "X-Forwarded-For" = some ["1.1.1.1, 10.0.0.1"] :=
  (outboundHeader_xff ⟨"http", "up", "", ""⟩
    ⟨"GET", ⟨"", "", "/", ""⟩, Header.empty.assign "X-Forwarded-For" ["1.1.1.1"],
      "10.0.0.1:1234", 0, ""⟩ "10.0.0.1" "1234" (by decide)).trans (by decide)

/-- C5: a header present on the client response before `Handler` runs whose
name case-insensitively starts with `access-control-` or equals `vary` is
present with the same value list on the client response `Handler` returns,
whatever the upstream answers (also when the upstream response carries the
same header name with other values) and on every path through `Handler`. -/
theorem Handler_keeps_cors (pfx : String) (target : URL) (up : Upstream)
    (admission : Admission) (w : ResponseWriter) (r : Request) (k : String)
    (vv : List String) (hpresent : w.header.entry k = some vv)
    (hcors : isCORSHeader k = true) :
    (Handler pfx target up admission w r).header.entry k = some vv := by
  have herr : ∀ (msg : String) (code : Nat), (Error w msg code).header.entry k = some vv := by
    intro msg code
    have h1 : ¬ (k = CanonicalMIMEHeaderKey "X-Content-Type-Options") :=
      ne_of_isCORSHeader k _ hcors (by decide)
    have h2 : ¬ (k = CanonicalMIMEHeaderKey "Content-Type") :=
      ne_of_isCORSHeader k _ hcors (by decide)
    have h3 : ¬ (k = CanonicalMIMEHeaderKey "Content-Length") :=
      ne_of_isCORSHeader k _ hcors (by decide)
    rw [header_Error, entry_Set, if_neg h1, entry_Set, if_neg h2, entry_Del, if_neg h3, hpresent]
  have hmerge : ∀ resp : Response, (writeResponse w resp).header.entry k = some vv := by
    intro resp
    rw [header_writeResponse]
    show (match (corsSnapshot w.header).entry k with
      | some vv => some vv
      | none => (DelHop (w.header.assignAll resp.Header)).entry k) = some vv
    have hsnap : (corsSnapshot w.header).entry k = some vv := by
      show (if isCORSHeader k then w.header.entry k else none) = some vv
      rw [hcors, hpresent]
      rfl
    rw [hsnap]
  unfold Handler
  cases admission with
  | cancelled => exact herr _ _
  | acquired =>
    simp only
    split
    · split
      · exact herr _ _
      · exact hmerge _
    · exact herr _ _

/-- C5 at a response that already has `Access-Control-Allow-Origin: *` while
the upstream answers with its own `Access-Control-Allow-Origin`. -/
theorem Handler_keeps_cors_witness :
    (Handler "/svc" ⟨"http", "up", "/api/", ""⟩
        ⟨fun _ _ => true, fun _ =>
          some ⟨200, Header.empty.assign "Access-Control-Allow-Origin" ["https://up.example"], "ok"⟩⟩
        Admission.acquired
        ⟨Header.empty.assign "Access-Control-Allow-Origin" ["*"], none, ""⟩
        ⟨"GET", ⟨"", "", "/svc/users", ""⟩, Header.empty, "10.0.0.1:1234", 0, ""⟩).header.entry
      "Access-Control-Allow-Origin" = some ["*"] :=
  Handler_keeps_cors "/svc" ⟨"http", "up", "/api/", ""⟩
    ⟨fun _ _ => true, fun _ =>
      some ⟨200, Header.empty.assign "Access-Control-Allow-Origin" ["https://up.example"], "ok"⟩⟩
    Admission.acquired
    ⟨Header.empty.assign "Access-Control-Allow-Origin" ["*"], none, ""⟩
    ⟨"GET", ⟨"", "", "/svc/users", ""⟩, Header.empty, "10.0.0.1:1234", 0, ""⟩
    "Access-Control-Allow-Origin" ["*"] (by decide) (by decide)

end GoProxy
